import Mathlib

/-!
The ggrpc skeleton: client call options, the client invocation stub and the server
lifecycle.

A shallow embedding of `client/client.go` and `server/server.go`.

* A Go `func(*Options)` mutates the record it is handed; here it is a function
  `Options → Options` returning the record after the mutation.
* `time.Duration` is a count of nanoseconds, an integer; `time.Second` is `10^9`.
* Go's `error` is `error.nil` or an error carrying a message.
* A Go `map[string]Service` is either the nil map or a finite set of entries with
  pairwise distinct keys; a `range` loop visits every entry once, in an order the
  runtime chooses, which the model takes as an argument.
-/

set_option linter.unusedVariables false

/-! ## Shared helpers -/

/-- Go's `error` interface value: `nil`, or an error with its message. -/
inductive error where
  | nil : error
  | mk (msg : String) : error
  deriving DecidableEq, Repr

namespace time

/-- The type `time.Duration`: a number of nanoseconds. -/
abbrev Duration := Int

/-- The constant `time.Second`, in nanoseconds. -/
def Second : Duration := 1000000000

end time

/-- The argument of the last element of `ms` that `sel` selects, if there is one:
the specification's "last mutator touching a field". -/
def lastArg {μ α : Type} (sel : μ → Option α) (ms : List μ) : Option α :=
  (ms.filterMap sel).getLast?

/-- Sequential application of mutators, in the order given: the loop
`for _, o := range opt { o(opts) }`. -/
def applyAll {σ : Type} (opt : List (σ → σ)) (base : σ) : σ :=
  opt.foldl (fun acc o => o acc) base

namespace context

/-- The part of a `context.Context` a callee can observe: whether it is already
cancelled, and its deadline (nanoseconds), if it has one. -/
structure Context where
  cancelled : Bool
  deadline : Option Int
  deriving DecidableEq, Repr

end context

/-! ## package client -/

namespace client

/-- The struct `Options`: the parameters of one client call. -/
structure Options where
  serName : String
  method : String
  target : String
  timeout : time.Duration
  network : String
  protocol : String
  serialType : String
  deriving DecidableEq, Repr

/-- The type `Option`, a `func(*Options)`. -/
abbrev Option := Options → Options

/-- The mutator `WithServiceName`. -/
def WithServiceName (serName : String) : Option :=
  fun o => { o with serName := serName }

/-- The mutator `WithMethodName`. -/
def WithMethodName (method : String) : Option :=
  fun o => { o with method := method }

/-- The mutator `WithTarget`. -/
def WithTarget (target : String) : Option :=
  fun o => { o with target := target }

/-- The mutator `WithTimeout`. -/
def WithTimeout (timeout : time.Duration) : Option :=
  fun o => { o with timeout := timeout }

/-- The mutator `WithNetwork`. -/
def WithNetwork (network : String) : Option :=
  fun o => { o with network := network }

/-- The mutator `WithProtocol`. -/
def WithProtocol (protocol : String) : Option :=
  fun o => { o with protocol := protocol }

/-- The mutator `WithSerialType`. -/
def WithSerialType (serialType : String) : Option :=
  fun o => { o with serialType := serialType }

/-- The struct `defaultClient`; `opts` is the record the pointer refers to. -/
structure defaultClient where
  opts : Options
  deriving DecidableEq, Repr

/-- The constructor `NewDefaultClient`; `target` is left at Go's zero value. -/
def NewDefaultClient : defaultClient :=
  { opts :=
      { serName := "default"
        method := "default"
        target := ""
        timeout := time.Second * 5
        network := "tcp"
        protocol := "json"
        serialType := "json" } }

/-- What a call on a client leaves behind: the error it returns, the client's stored
Options after the call and the content of the response destination after the call. -/
structure Outcome (β : Type) where
  err : error
  opts : Options
  rsp : β

/-- The method `Inovke`. Its body is the single statement `return nil`: every other
line of it is commented out. The receiver's Options and the destination `rsp` are
therefore the ones it was handed. -/
def defaultClient.Inovke {α β : Type} (c : defaultClient) (ctx : context.Context)
    (req : α) (rsp : β) (path : String) (opts : List Option) : Outcome β :=
  { err := error.nil, opts := c.opts, rsp := rsp }

/-- The method `Call`. Its one call, `c.Inovke(ctx, req, rsp, path, callOpts...)`,
goes through the argument `invoke`, which stands for the receiver's method `Inovke`, so
that what `Call` hands to that method and what it does with the answer are visible in
its result; the program's `Call` is `Call Inovke`. `callOpts` is a fresh empty slice
to which `opts...` is appended; the error of the call is returned when it is not nil,
and nil otherwise. -/
def defaultClient.Call {α β : Type}
    (invoke : defaultClient → context.Context → α → β → String → List Option → Outcome β)
    (c : defaultClient) (ctx : context.Context)
    (req : α) (rsp : β) (path : String) (opts : List Option) : Outcome β :=
  let callOpts : List Option := [] ++ opts
  let r := invoke c ctx req rsp path callOpts
  if r.err ≠ error.nil then { r with err := r.err } else { r with err := error.nil }

/-- A call of one of the seven exported mutators, with its argument. -/
inductive Mutator where
  | serviceName (v : String)
  | methodName (v : String)
  | target (v : String)
  | timeout (v : time.Duration)
  | network (v : String)
  | protocol (v : String)
  | serialType (v : String)
  deriving DecidableEq, Repr

namespace Mutator

/-- The `Option` a mutator call evaluates to. -/
def toOption : Mutator → Option
  | serviceName v => WithServiceName v
  | methodName v => WithMethodName v
  | target v => WithTarget v
  | timeout v => WithTimeout v
  | network v => WithNetwork v
  | protocol v => WithProtocol v
  | serialType v => WithSerialType v

end Mutator

end client

/-! ### Which field a mutator call touches -/

namespace touches

/-- The argument of a `WithServiceName` call; `none` for the other mutators. -/
def serName : client.Mutator → Option String
  | .serviceName v => some v
  | _ => none

/-- The argument of a `WithMethodName` call; `none` for the other mutators. -/
def method : client.Mutator → Option String
  | .methodName v => some v
  | _ => none

/-- The argument of a `WithTarget` call; `none` for the other mutators. -/
def target : client.Mutator → Option String
  | .target v => some v
  | _ => none

/-- The argument of a `WithTimeout` call; `none` for the other mutators. -/
def timeout : client.Mutator → Option time.Duration
  | .timeout v => some v
  | _ => none

/-- The argument of a `WithNetwork` call; `none` for the other mutators. -/
def network : client.Mutator → Option String
  | .network v => some v
  | _ => none

/-- The argument of a `WithProtocol` call; `none` for the other mutators. -/
def protocol : client.Mutator → Option String
  | .protocol v => some v
  | _ => none

/-- The argument of a `WithSerialType` call; `none` for the other mutators. -/
def serialType : client.Mutator → Option String
  | .serialType v => some v
  | _ => none

end touches

/-- The Options a sequence of mutator calls builds over `NewDefaultClient`. -/
def client.build (ms : List client.Mutator) : client.Options :=
  applyAll (ms.map client.Mutator.toOption) client.NewDefaultClient.opts

/-! ## package server -/

namespace server

/-- The struct `ServerOptions`. -/
structure ServerOptions where
  addr : String
  network : String
  protocol : String
  timeout : time.Duration
  serialType : String
  deriving DecidableEq, Repr

/-- The type `ServerOption`, a `func(*ServerOptions)`. -/
abbrev ServerOption := ServerOptions → ServerOptions

/-- The mutator `WithAddr`. -/
def WithAddr (addr : String) : ServerOption :=
  fun o => { o with addr := addr }

/-- The mutator `WithNetwork`. -/
def WithNetwork (network : String) : ServerOption :=
  fun o => { o with network := network }

/-- The mutator `WithProtocol`. -/
def WithProtocol (protocol : String) : ServerOption :=
  fun o => { o with protocol := protocol }

/-- The mutator `WithTimeout`. -/
def WithTimeout (timeout : time.Duration) : ServerOption :=
  fun o => { o with timeout := timeout }

/-- The mutator `WithSerialType`. -/
def WithSerialType (serialType : String) : ServerOption :=
  fun o => { o with serialType := serialType }

/-- The interface `Service`: what its two methods return. `Serve` is handed the
server's options; either may return nil or an error. -/
structure Service where
  Serve : ServerOptions → error
  Close : error

/-- A `map[string]Service`: `none` is the nil map, `some es` a map made with `make`
holding the entries `es`, whose keys are pairwise distinct. -/
abbrev ServiceMap := Option (List (String × Service))

/-- The entries of a map; the nil map has none. -/
def ServiceMap.entries (m : ServiceMap) : List (String × Service) :=
  m.getD []

/-- The keys of a map. -/
def ServiceMap.keys (m : ServiceMap) : List String :=
  m.entries.map Prod.fst

/-- The struct `Server`. -/
structure Server where
  opts : ServerOptions
  services : ServiceMap

/-- The zero value `ServerOptions{}`. -/
def ServerOptions.zero : ServerOptions :=
  { addr := "", network := "", protocol := "", timeout := 0, serialType := "" }

/-- The constructor `NewServer`: the zero options and a freshly made empty map, then
every mutator applied to the options, in order. -/
def NewServer (opt : List ServerOption) : Server :=
  let s : Server := { opts := ServerOptions.zero, services := some [] }
  { s with opts := applyAll opt s.opts }

/-- The signals `Serve` subscribes to. -/
inductive Signal where
  | SIGTERM
  | SIGINT
  | SIGQUIT
  deriving DecidableEq, Repr

/-- What the goroutine running `Server.Serve` or `Server.Close` does, in program
order. `goServe name o` is the statement `go service.Serve(s.opts)` for the entry
`name`, with the options it passes; `close name e` is the statement
`service.Close()` for the entry `name`, with the error the call returned. -/
inductive Event where
  | goServe (name : String) (o : ServerOptions)
  | notify
  | waitSignal
  | received (sig : Signal)
  | close (name : String) (e : error)
  deriving DecidableEq, Repr

/-- The method `Close`, over the order `visit` in which the `range` loop yields the
entries of `s.services`: every entry's `Close` is called and its result dropped. -/
def Server.Close (s : Server) (visit : List (String × Service)) : List Event :=
  visit.foldl (fun trace entry => trace ++ [Event.close entry.1 entry.2.Close]) []

/-- The method `Serve`, over the orders in which its `range` loop and the one of
`Close` yield the entries, and the signal delivered (`none`: no signal ever arrives
and the receive blocks for ever). The result a goroutine's `Serve` returns is
dropped with the goroutine. -/
def Server.Serve (s : Server) (startVisit closeVisit : List (String × Service))
    (sig : Option Signal) : List Event :=
  let started := startVisit.foldl (fun trace entry => trace ++ [Event.goServe entry.1 s.opts]) []
  let waiting := started ++ [Event.notify, Event.waitSignal]
  match sig with
  | none => waiting
  | some sg => waiting ++ [Event.received sg] ++ s.Close closeVisit

/-- A `range` loop over a map yields each entry exactly once, in some order. -/
def ServiceMap.Yields (m : ServiceMap) (visit : List (String × Service)) : Prop :=
  visit.Perm m.entries

/-- Well-formedness of a map: no key occurs twice. -/
def ServiceMap.WF (m : ServiceMap) : Prop :=
  m.keys.Nodup

instance (m : ServiceMap) : Decidable m.WF :=
  inferInstanceAs (Decidable m.keys.Nodup)

/-- A call of one of the five exported server mutators, with its argument. -/
inductive Mutator where
  | addr (v : String)
  | network (v : String)
  | protocol (v : String)
  | timeout (v : time.Duration)
  | serialType (v : String)
  deriving DecidableEq, Repr

/-- The `ServerOption` a mutator call evaluates to. -/
def Mutator.toOption : Mutator → ServerOption
  | .addr v => WithAddr v
  | .network v => WithNetwork v
  | .protocol v => WithProtocol v
  | .timeout v => WithTimeout v
  | .serialType v => WithSerialType v

/-- The argument of a `WithAddr` call; `none` for the other mutators. -/
def Mutator.addr? : Mutator → Option String
  | .addr v => some v
  | _ => none

/-- The argument of a `WithNetwork` call; `none` for the other mutators. -/
def Mutator.network? : Mutator → Option String
  | .network v => some v
  | _ => none

/-- The argument of a `WithProtocol` call; `none` for the other mutators. -/
def Mutator.protocol? : Mutator → Option String
  | .protocol v => some v
  | _ => none

/-- The argument of a `WithTimeout` call; `none` for the other mutators. -/
def Mutator.timeout? : Mutator → Option time.Duration
  | .timeout v => some v
  | _ => none

/-- The argument of a `WithSerialType` call; `none` for the other mutators. -/
def Mutator.serialType? : Mutator → Option String
  | .serialType v => some v
  | _ => none

/-- Whether an event is the `Close` call on the entry `name`. -/
def Event.isCloseOf (name : String) : Event → Bool
  | .close n _ => n == name
  | _ => false

/-- Whether an event is the `go service.Serve(..)` statement for the entry `name`. -/
def Event.isGoServeOf (name : String) : Event → Bool
  | .goServe n _ => n == name
  | _ => false

/-- The events of a trace that come before the goroutine blocks on the signal channel. -/
def beforeWait (trace : List Event) : List Event :=
  trace.takeWhile (fun e => e != Event.waitSignal)

end server

/-! ### A concrete server, for instantiating the lifecycle theorems -/

/-- A service whose `Serve` and `Close` both return an error. -/
def server.failingService : server.Service :=
  { Serve := fun _ => error.mk "listen failed", Close := error.mk "close failed" }

/-- A service whose `Serve` and `Close` both return nil. -/
def server.quietService : server.Service :=
  { Serve := fun _ => error.nil, Close := error.nil }

/-- A server built by `NewServer(WithAddr(":8080"))` into whose registry the services
"A" (failing) and "B" (quiet) have been put. -/
def server.twoServices : server.Server :=
  { server.NewServer [server.WithAddr ":8080"] with
    services := some [("A", server.failingService), ("B", server.quietService)] }

/-- An iteration order over the registry of `twoServices`: "B" first, then "A". -/
def server.visitBA : List (String × server.Service) :=
  [("B", server.quietService), ("A", server.failingService)]

/-! ## Lemmas on mutator sequences -/

theorem applyAll_concat {σ : Type} (fs : List (σ → σ)) (f : σ → σ) (b : σ) :
    applyAll (fs ++ [f]) b = f (applyAll fs b) := by
  simp [applyAll, List.foldl_append]

theorem lastArg_concat_some {μ α : Type} (sel : μ → Option α) (ms : List μ) (m : μ) (v : α)
    (h : sel m = some v) : lastArg sel (ms ++ [m]) = some v := by
  simp [lastArg, List.filterMap_append, h]

theorem lastArg_concat_none {μ α : Type} (sel : μ → Option α) (ms : List μ) (m : μ)
    (h : sel m = none) : lastArg sel (ms ++ [m]) = lastArg sel ms := by
  simp [lastArg, List.filterMap_append, h]

/-- No element selected: `lastArg` finds nothing, and conversely. -/
theorem lastArg_eq_none_iff {μ α : Type} (sel : μ → Option α) (ms : List μ) :
    lastArg sel ms = none ↔ ∀ x ∈ ms, sel x = none := by
  simp [lastArg, List.getLast?_eq_none_iff, List.filterMap_eq_nil_iff]

/-- The element `m` is selected and nothing after it is: `lastArg` is the argument of `m`. -/
theorem lastArg_split {μ α : Type} (sel : μ → Option α) (pre post : List μ) (m : μ) (v : α)
    (hm : sel m = some v) (hpost : ∀ x ∈ post, sel x = none) :
    lastArg sel (pre ++ m :: post) = some v := by
  have hnil : post.filterMap sel = [] := List.filterMap_eq_nil_iff.mpr hpost
  simp [lastArg, List.filterMap_append, List.filterMap_cons, hm, hnil]

/-- A field whose getter sees each mutator either store its argument or leave the
field alone ends as the last stored argument, or as it started. -/
theorem field_after_applyAll {σ μ α : Type} (get : σ → α) (run : μ → σ → σ)
    (sel : μ → Option α) (hstep : ∀ m o, get (run m o) = (sel m).getD (get o))
    (ms : List μ) (base : σ) :
    get (applyAll (ms.map run) base) = (lastArg sel ms).getD (get base) := by
  induction ms using List.reverseRecOn with
  | nil => simp [applyAll, lastArg]
  | append_singleton ms m ih =>
    rw [List.map_append, List.map_singleton, applyAll_concat, hstep, ih]
    cases hm : sel m with
    | none => rw [lastArg_concat_none sel ms m hm]; rfl
    | some v => rw [lastArg_concat_some sel ms m v hm]; rfl


/-! ## Call Options -/

/-- C1: for every finite sequence of the seven Call Option mutators applied in order to
the Options `NewDefaultClient` builds, each field ends as the argument of the last
mutator of the sequence that touches it, and a field no mutator touches keeps its
default (service "default", method "default", target "", timeout 5s, network "tcp",
protocol "json", serialization "json"); in particular `WithTarget("10.0.0.1:9000")`
followed by `WithTimeout(2s)` gives the defaults with that target and a timeout of 2s. -/
theorem C1_last_mutator_wins_over_defaults :
    (∀ ms : List client.Mutator,
      (client.build ms).serName = (lastArg touches.serName ms).getD "default" ∧
      (client.build ms).method = (lastArg touches.method ms).getD "default" ∧
      (client.build ms).target = (lastArg touches.target ms).getD "" ∧
      (client.build ms).timeout = (lastArg touches.timeout ms).getD (5 * time.Second) ∧
      (client.build ms).network = (lastArg touches.network ms).getD "tcp" ∧
      (client.build ms).protocol = (lastArg touches.protocol ms).getD "json" ∧
      (client.build ms).serialType = (lastArg touches.serialType ms).getD "json") ∧
    applyAll [client.WithTarget "10.0.0.1:9000", client.WithTimeout (2 * time.Second)]
        client.NewDefaultClient.opts =
      { serName := "default", method := "default", target := "10.0.0.1:9000",
        timeout := 2 * time.Second, network := "tcp", protocol := "json",
        serialType := "json" } := by
  refine ⟨fun ms => ⟨?_, ?_, ?_, ?_, ?_, ?_, ?_⟩, rfl⟩
  · exact field_after_applyAll client.Options.serName client.Mutator.toOption touches.serName
      (fun m o => by cases m <;> rfl) ms _
  · exact field_after_applyAll client.Options.method client.Mutator.toOption touches.method
      (fun m o => by cases m <;> rfl) ms _
  · exact field_after_applyAll client.Options.target client.Mutator.toOption touches.target
      (fun m o => by cases m <;> rfl) ms _
  · exact field_after_applyAll client.Options.timeout client.Mutator.toOption touches.timeout
      (fun m o => by cases m <;> rfl) ms _
  · exact field_after_applyAll client.Options.network client.Mutator.toOption touches.network
      (fun m o => by cases m <;> rfl) ms _
  · exact field_after_applyAll client.Options.protocol client.Mutator.toOption touches.protocol
      (fun m o => by cases m <;> rfl) ms _
  · exact field_after_applyAll client.Options.serialType client.Mutator.toOption
      touches.serialType (fun m o => by cases m <;> rfl) ms _

/-- C2: each of the seven Call Option mutators overwrites exactly one field: applied to
any Options `o` with any argument `v`, it stores `v` in its own field (serName, method,
target, timeout, network, protocol, serialType respectively) and leaves the other six
fields as they were in `o`. -/
theorem C2_mutator_overwrites_exactly_one_field (o : client.Options) (v : String)
    (d : time.Duration) :
    client.WithServiceName v o =
      { serName := v, method := o.method, target := o.target, timeout := o.timeout,
        network := o.network, protocol := o.protocol, serialType := o.serialType } ∧
    client.WithMethodName v o =
      { serName := o.serName, method := v, target := o.target, timeout := o.timeout,
        network := o.network, protocol := o.protocol, serialType := o.serialType } ∧
    client.WithTarget v o =
      { serName := o.serName, method := o.method, target := v, timeout := o.timeout,
        network := o.network, protocol := o.protocol, serialType := o.serialType } ∧
    client.WithTimeout d o =
      { serName := o.serName, method := o.method, target := o.target, timeout := d,
        network := o.network, protocol := o.protocol, serialType := o.serialType } ∧
    client.WithNetwork v o =
      { serName := o.serName, method := o.method, target := o.target, timeout := o.timeout,
        network := v, protocol := o.protocol, serialType := o.serialType } ∧
    client.WithProtocol v o =
      { serName := o.serName, method := o.method, target := o.target, timeout := o.timeout,
        network := o.network, protocol := v, serialType := o.serialType } ∧
    client.WithSerialType v o =
      { serName := o.serName, method := o.method, target := o.target, timeout := o.timeout,
        network := o.network, protocol := o.protocol, serialType := v } :=
  ⟨rfl, rfl, rfl, rfl, rfl, rfl, rfl⟩

/-- C6 (as the specification states it, refuted): the sequence consisting of
`WithTimeout(0)` alone, applied over the Options of `NewDefaultClient`, leaves a
timeout of 0, which is not the default 5s. -/
theorem C6_zero_timeout_is_not_defaulted :
    (client.build [client.Mutator.timeout 0]).timeout = 0 ∧
    (client.build [client.Mutator.timeout 0]).timeout ≠ 5 * time.Second := by
  decide

/-- C6 (amended): for every mutator sequence whose last timeout mutator is
`WithTimeout(0)`, the timeout of the Options built over `NewDefaultClient` is 0, not
the default 5s. -/
theorem C6_zero_timeout_is_kept (before after : List client.Mutator)
    (hlast : ∀ m ∈ after, touches.timeout m = none) :
    (client.build (before ++ client.Mutator.timeout 0 :: after)).timeout = 0 ∧
    (client.build (before ++ client.Mutator.timeout 0 :: after)).timeout ≠
      5 * time.Second := by
  have h := field_after_applyAll client.Options.timeout client.Mutator.toOption
    touches.timeout (fun m o => by cases m <;> rfl)
    (before ++ client.Mutator.timeout 0 :: after) client.NewDefaultClient.opts
  rw [lastArg_split touches.timeout before after (client.Mutator.timeout 0) 0 rfl hlast] at h
  have hzero : (client.build (before ++ client.Mutator.timeout 0 :: after)).timeout = 0 := h
  refine ⟨hzero, ?_⟩
  rw [hzero]
  decide

/-- C6 (amended), at `WithTimeout(3s), WithTimeout(0), WithTarget("h:1")`. -/
theorem C6_zero_timeout_is_kept_witness :
    (∀ m ∈ [client.Mutator.target "h:1"], touches.timeout m = none) ∧
    (client.build ([client.Mutator.timeout (3 * time.Second)] ++
      client.Mutator.timeout 0 :: [client.Mutator.target "h:1"])).timeout = 0 ∧
    (client.build ([client.Mutator.timeout (3 * time.Second)] ++
      client.Mutator.timeout 0 :: [client.Mutator.target "h:1"])).timeout ≠
      5 * time.Second :=
  ⟨by simp [touches.timeout],
    C6_zero_timeout_is_kept [client.Mutator.timeout (3 * time.Second)]
      [client.Mutator.target "h:1"] (by simp [touches.timeout])⟩

/-! ## Server construction -/

/-- C3: `NewServer` builds its options by the override-by-order rule: for every finite
sequence of the five ServerOption mutators, each field of the new server's options is
the argument of the last mutator of the sequence that touches it, and a field no
mutator touches keeps the value of the zero `ServerOptions` (empty strings, timeout 0). -/
theorem C3_NewServer_last_mutator_wins (ms : List server.Mutator) :
    (server.NewServer (ms.map server.Mutator.toOption)).opts.addr =
      (lastArg server.Mutator.addr? ms).getD "" ∧
    (server.NewServer (ms.map server.Mutator.toOption)).opts.network =
      (lastArg server.Mutator.network? ms).getD "" ∧
    (server.NewServer (ms.map server.Mutator.toOption)).opts.protocol =
      (lastArg server.Mutator.protocol? ms).getD "" ∧
    (server.NewServer (ms.map server.Mutator.toOption)).opts.timeout =
      (lastArg server.Mutator.timeout? ms).getD 0 ∧
    (server.NewServer (ms.map server.Mutator.toOption)).opts.serialType =
      (lastArg server.Mutator.serialType? ms).getD "" := by
  refine ⟨?_, ?_, ?_, ?_, ?_⟩
  · exact field_after_applyAll server.ServerOptions.addr server.Mutator.toOption
      server.Mutator.addr? (fun m o => by cases m <;> rfl) ms _
  · exact field_after_applyAll server.ServerOptions.network server.Mutator.toOption
      server.Mutator.network? (fun m o => by cases m <;> rfl) ms _
  · exact field_after_applyAll server.ServerOptions.protocol server.Mutator.toOption
      server.Mutator.protocol? (fun m o => by cases m <;> rfl) ms _
  · exact field_after_applyAll server.ServerOptions.timeout server.Mutator.toOption
      server.Mutator.timeout? (fun m o => by cases m <;> rfl) ms _
  · exact field_after_applyAll server.ServerOptions.serialType server.Mutator.toOption
      server.Mutator.serialType? (fun m o => by cases m <;> rfl) ms _

/-- C7: a freshly constructed Server has an empty registry: for every sequence of
ServerOption mutators (any functions on ServerOptions), the services map of
`NewServer(opts...)` is not the nil map and holds no entry, so no mutator adds,
removes or replaces a registered service. -/
theorem C7_NewServer_registry_is_empty (opt : List server.ServerOption) :
    (server.NewServer opt).services ≠ none ∧
    (server.NewServer opt).services = some [] ∧
    (server.NewServer opt).services.entries = [] ∧
    ∀ name : String, name ∉ (server.NewServer opt).services.keys := by
  refine ⟨?_, rfl, rfl, ?_⟩
  · simp [server.NewServer]
  · intro name
    simp [server.NewServer, server.ServiceMap.keys, server.ServiceMap.entries]

/-! ## Client invocation -/

/-- C10: `Inovke` is a no-op that always succeeds: for every client, context (cancelled
or not), request, response destination, path and option list it returns nil, leaves
every field of the client's stored Options as it was (none of the supplied mutators
is applied to them) and writes nothing to the response destination. -/
theorem C10_Inovke_is_a_noop {α β : Type} (c : client.defaultClient) (ctx : context.Context)
    (req : α) (rsp : β) (path : String) (opts : List client.Option) :
    (c.Inovke ctx req rsp path opts).err = error.nil ∧
    (c.Inovke ctx req rsp path opts).opts = c.opts ∧
    (c.Inovke ctx req rsp path opts).rsp = rsp :=
  ⟨rfl, rfl, rfl⟩

/-- C9: `Call` is a transparent proxy for `Inovke`: for every context, request,
response destination, path and option list, and whatever the method `Inovke` it
calls does with its arguments, `Call` hands it the same context, request, destination
and path and an option list equal to the caller's (same mutators, same order, none
added or dropped) and returns exactly what that call returned; so the program's
`Call`, which calls `Inovke`, returns the error `Inovke` returns on the caller's own
arguments, nil exactly when `Inovke` returns nil. -/
theorem C9_Call_is_a_transparent_proxy {α β : Type} (c : client.defaultClient)
    (ctx : context.Context) (req : α) (rsp : β) (path : String)
    (opts : List client.Option) :
    (∀ invoke : client.defaultClient → context.Context → α → β → String →
        List client.Option → client.Outcome β,
      client.defaultClient.Call invoke c ctx req rsp path opts =
        invoke c ctx req rsp path opts) ∧
    client.defaultClient.Call client.defaultClient.Inovke c ctx req rsp path opts =
      c.Inovke ctx req rsp path opts ∧
    (client.defaultClient.Call client.defaultClient.Inovke c ctx req rsp path opts).err =
      (c.Inovke ctx req rsp path opts).err ∧
    ((client.defaultClient.Call client.defaultClient.Inovke c ctx req rsp path opts).err =
        error.nil ↔
      (c.Inovke ctx req rsp path opts).err = error.nil) := by
  have hproxy : ∀ invoke : client.defaultClient → context.Context → α → β → String →
      List client.Option → client.Outcome β,
      client.defaultClient.Call invoke c ctx req rsp path opts =
        invoke c ctx req rsp path opts := by
    intro invoke
    simp only [client.defaultClient.Call, List.nil_append]
    split <;> rename_i h
    · rfl
    · have h' : (invoke c ctx req rsp path opts).err = error.nil := by
        by_contra hne
        exact h hne
      cases hr : invoke c ctx req rsp path opts with
      | mk e o r =>
        rw [hr] at h'
        simp only at h'
        subst h'
        rfl
  have hcall : client.defaultClient.Call client.defaultClient.Inovke c ctx req rsp path opts =
      c.Inovke ctx req rsp path opts :=
    hproxy client.defaultClient.Inovke
  exact ⟨hproxy, hcall, by rw [hcall], by rw [hcall]⟩

/-- C5 (as the specification states it, refuted): a client configured through
`WithSerialType("no-such-codec")` gets nil from `Inovke`, not an error. The
repository holds no table of serializers, so the set of known kinds is the argument
`known`: it is not the case that, for every such table, `Inovke` returns a non-nil
error on every client whose configured kind the table does not know. -/
theorem C5_unknown_serialization_still_succeeds :
    (client.WithSerialType "no-such-codec" client.NewDefaultClient.opts).serialType =
      "no-such-codec" ∧
    (client.defaultClient.Inovke
      { opts := client.WithSerialType "no-such-codec" client.NewDefaultClient.opts }
      { cancelled := false, deadline := none } "ping" "" "/echo/Say" []).err = error.nil ∧
    ¬ (∀ (known : String → Bool) (c : client.defaultClient) (ctx : context.Context)
        (req rsp path : String) (opts : List client.Option),
        known c.opts.serialType = false →
          (c.Inovke ctx req rsp path opts).err ≠ error.nil) := by
  refine ⟨rfl, rfl, ?_⟩
  intro hclaim
  exact hclaim (fun kind => kind == "json")
    { opts := client.WithSerialType "no-such-codec" client.NewDefaultClient.opts }
    { cancelled := false, deadline := none } "ping" "" "/echo/Say" [] (by decide) rfl

/-- C5 (amended): whatever serialization kind the client is configured with, the
default or one set through `WithSerialType`, naming a serializer or not, `Inovke`
returns nil: it resolves no serializer and reports no configuration error. -/
theorem C5_Inovke_ignores_serialization_kind {α β : Type} (kind : String)
    (c : client.defaultClient) (ctx : context.Context) (req : α) (rsp : β) (path : String)
    (opts : List client.Option) :
    (client.defaultClient.Inovke { opts := client.WithSerialType kind c.opts }
      ctx req rsp path opts).err = error.nil ∧
    (client.defaultClient.Inovke
      { opts := applyAll (opts ++ [client.WithSerialType kind]) c.opts }
      ctx req rsp path opts).err = error.nil ∧
    (c.Inovke ctx req rsp path (opts ++ [client.WithSerialType kind])).err = error.nil :=
  ⟨rfl, rfl, rfl⟩

/-! ## Server lifecycle -/

theorem foldl_snoc_eq_map {ι ε : Type} (f : ι → ε) (l : List ι) (init : List ε) :
    l.foldl (fun trace entry => trace ++ [f entry]) init = init ++ l.map f := by
  induction l generalizing init with
  | nil => simp
  | cons a l ih => simp [ih]

theorem server.Close_eq_map (s : server.Server) (visit : List (String × server.Service)) :
    s.Close visit = visit.map (fun entry => server.Event.close entry.1 entry.2.Close) := by
  simp [server.Server.Close, foldl_snoc_eq_map]

theorem server.countP_isCloseOf (name : String) (visit : List (String × server.Service)) :
    (visit.map (fun entry => server.Event.close entry.1 entry.2.Close)).countP
      (server.Event.isCloseOf name) = (visit.map Prod.fst).count name := by
  induction visit with
  | nil => rfl
  | cons a l ih =>
    simp only [List.map_cons, List.countP_cons, List.count_cons, ih, server.Event.isCloseOf]

theorem server.countP_isGoServeOf (name : String) (o : server.ServerOptions)
    (visit : List (String × server.Service)) :
    (visit.map (fun entry => server.Event.goServe entry.1 o)).countP
      (server.Event.isGoServeOf name) = (visit.map Prod.fst).count name := by
  induction visit with
  | nil => rfl
  | cons a l ih =>
    simp only [List.map_cons, List.countP_cons, List.count_cons, ih, server.Event.isGoServeOf]

theorem server.count_key (m : server.ServiceMap) (visit : List (String × server.Service))
    (hwf : m.WF) (hvisit : m.Yields visit) (name : String) :
    (visit.map Prod.fst).count name = if name ∈ m.keys then 1 else 0 := by
  have hperm : (visit.map Prod.fst).Perm m.keys := List.Perm.map Prod.fst hvisit
  rw [hperm.count_eq]
  split
  · next h => exact List.count_eq_one_of_mem hwf h
  · next h => exact List.count_eq_zero_of_not_mem h

theorem server.Serve_eq (s : server.Server) (startVisit closeVisit : List (String × server.Service))
    (sig : Option server.Signal) :
    s.Serve startVisit closeVisit sig =
      startVisit.map (fun entry => server.Event.goServe entry.1 s.opts) ++
        (server.Event.notify :: server.Event.waitSignal ::
          (match sig with
            | none => []
            | some sg => server.Event.received sg :: s.Close closeVisit)) := by
  cases sig <;> simp [server.Server.Serve, foldl_snoc_eq_map]

theorem server.beforeWait_Serve (s : server.Server)
    (startVisit closeVisit : List (String × server.Service)) (sig : Option server.Signal) :
    server.beforeWait (s.Serve startVisit closeVisit sig) =
      startVisit.map (fun entry => server.Event.goServe entry.1 s.opts) ++
        [server.Event.notify] := by
  rw [server.Serve_eq]
  generalize (match sig with
    | none => []
    | some sg => server.Event.received sg :: s.Close closeVisit) = rest
  have hnotify : (server.Event.notify != server.Event.waitSignal) = true := by decide
  have hgo : ∀ (n : String) (o : server.ServerOptions),
      (server.Event.goServe n o != server.Event.waitSignal) = true := by
    intro n o
    rw [bne_iff_ne]
    intro h
    cases h
  induction startVisit with
  | nil => simp [server.beforeWait, List.takeWhile, hnotify]
  | cons a l ih =>
    simp only [server.beforeWait] at ih
    simp [server.beforeWait, List.takeWhile, ih, hgo]

/-- C4: `Server.Close`, the step `Server.Serve` runs once a signal is received, calls
`Close` on every entry of the registry exactly once and on nothing else, in whatever
order the map is iterated and whatever the services' `Close` (or earlier `Serve`)
return: an error returned by one `Close` is dropped and the loop goes on to the
remaining entries. -/
theorem C4_Close_closes_every_registered_service_once (s : server.Server)
    (visit : List (String × server.Service))
    (hwf : s.services.WF) (hvisit : s.services.Yields visit) :
    (∀ name : String,
      (s.Close visit).countP (server.Event.isCloseOf name) =
        if name ∈ s.services.keys then 1 else 0) ∧
    (∀ entry ∈ s.services.entries,
      server.Event.close entry.1 entry.2.Close ∈ s.Close visit) ∧
    (∀ name e, server.Event.close name e ∈ s.Close visit → name ∈ s.services.keys) ∧
    (s.Close visit).length = s.services.entries.length ∧
    (∀ (startVisit : List (String × server.Service)) (sg : server.Signal),
      s.Serve startVisit visit (some sg) =
        s.Serve startVisit visit none ++ [server.Event.received sg] ++ s.Close visit) := by
  refine ⟨?_, ?_, ?_, ?_, ?_⟩
  · intro name
    rw [server.Close_eq_map, server.countP_isCloseOf]
    exact server.count_key s.services visit hwf hvisit name
  · intro entry hentry
    rw [server.Close_eq_map]
    exact List.mem_map.mpr ⟨entry, (List.Perm.mem_iff hvisit).mpr hentry, rfl⟩
  · intro name e hmem
    rw [server.Close_eq_map] at hmem
    obtain ⟨entry, hentry, heq⟩ := List.mem_map.mp hmem
    have hname : entry.1 = name := by
      injection heq
    have hreg : entry ∈ s.services.entries := (List.Perm.mem_iff hvisit).mp hentry
    rw [← hname]
    exact List.mem_map.mpr ⟨entry, hreg, rfl⟩
  · rw [server.Close_eq_map, List.length_map]
    exact List.Perm.length_eq hvisit
  · intro startVisit sg
    rfl

/-- C4, at the server `twoServices`, whose service "A" returns an error from `Close`,
iterated with "B" first. -/
theorem C4_Close_closes_every_registered_service_once_witness :
    server.twoServices.services.WF ∧
    server.twoServices.services.Yields server.visitBA ∧
    (∀ name : String,
      (server.twoServices.Close server.visitBA).countP (server.Event.isCloseOf name) =
        if name ∈ server.twoServices.services.keys then 1 else 0) ∧
    server.twoServices.Close server.visitBA =
      [server.Event.close "B" error.nil, server.Event.close "A" (error.mk "close failed")] :=
  ⟨by decide, List.Perm.swap _ _ _,
    (C4_Close_closes_every_registered_service_once server.twoServices server.visitBA
      (by decide) (List.Perm.swap _ _ _)).1,
    rfl⟩

/-- C8: `Server.Serve` starts every registered service before it blocks on the
termination signal: for a registry of any size (none, one or several services), by
the time `Serve` reaches the receive on the signal channel it has executed
`go service.Serve(s.opts)` exactly once for every entry of the registry and for
nothing else, each with the server's own options as the argument; `Serve` does reach
that receive, and starts no service after it. -/
theorem C8_Serve_starts_every_service_before_waiting (s : server.Server)
    (startVisit closeVisit : List (String × server.Service)) (sig : Option server.Signal)
    (hwf : s.services.WF) (hvisit : s.services.Yields startVisit) :
    server.Event.waitSignal ∈ s.Serve startVisit closeVisit sig ∧
    (∀ name : String,
      (server.beforeWait (s.Serve startVisit closeVisit sig)).countP
          (server.Event.isGoServeOf name) =
        if name ∈ s.services.keys then 1 else 0) ∧
    (∀ name ∈ s.services.keys,
      server.Event.goServe name s.opts ∈
        server.beforeWait (s.Serve startVisit closeVisit sig)) ∧
    (∀ name o, server.Event.goServe name o ∈ s.Serve startVisit closeVisit sig →
      o = s.opts ∧
      server.Event.goServe name o ∈ server.beforeWait (s.Serve startVisit closeVisit sig)) := by
  refine ⟨?_, ?_, ?_, ?_⟩
  · rw [server.Serve_eq]
    simp
  · intro name
    rw [server.beforeWait_Serve, List.countP_append, server.countP_isGoServeOf]
    simp only [List.countP_cons, List.countP_nil, server.Event.isGoServeOf]
    simpa using server.count_key s.services startVisit hwf hvisit name
  · intro name hname
    rw [server.beforeWait_Serve]
    obtain ⟨entry, hentry, hkey⟩ := List.mem_map.mp hname
    have hin : entry ∈ startVisit := (List.Perm.mem_iff hvisit).mpr hentry
    exact List.mem_append_left _ (List.mem_map.mpr ⟨entry, hin, by rw [hkey]⟩)
  · intro name o hmem
    rw [server.beforeWait_Serve]
    rw [server.Serve_eq, List.mem_append] at hmem
    rcases hmem with hmem | hmem
    · obtain ⟨entry, hentry, heq⟩ := List.mem_map.mp hmem
      have ho : s.opts = o := by
        injection heq
      refine ⟨ho.symm, List.mem_append_left _ ?_⟩
      exact List.mem_map.mpr ⟨entry, hentry, heq⟩
    · exfalso
      cases sig with
      | none => simp at hmem
      | some sg =>
        simp only [List.mem_cons, server.Close_eq_map, List.mem_map] at hmem
        rcases hmem with h | h | h | ⟨entry, _, h⟩ <;> cases h

/-- C8, at the server `twoServices` (two services, "A" failing), started with "B"
first, with SIGINT delivered. -/
theorem C8_Serve_starts_every_service_before_waiting_witness :
    server.twoServices.services.WF ∧
    server.twoServices.services.Yields server.visitBA ∧
    (∀ name : String,
      (server.beforeWait (server.twoServices.Serve server.visitBA server.visitBA
          (some server.Signal.SIGINT))).countP (server.Event.isGoServeOf name) =
        if name ∈ server.twoServices.services.keys then 1 else 0) ∧
    server.beforeWait (server.twoServices.Serve server.visitBA server.visitBA
        (some server.Signal.SIGINT)) =
      [server.Event.goServe "B" server.twoServices.opts,
        server.Event.goServe "A" server.twoServices.opts, server.Event.notify] :=
  ⟨by decide, List.Perm.swap _ _ _,
    (C8_Serve_starts_every_service_before_waiting server.twoServices server.visitBA
      server.visitBA (some server.Signal.SIGINT) (by decide) (List.Perm.swap _ _ _)).2.1,
    by decide⟩
